import Mathlib

/-!
Verification of the resume-analyzer repository against its specification.

The development shallowly embeds the three source files:
* `src/gemini_engine.py` — the model-call layer (`analyze_resume`);
* `src/pdf_loader.py`    — text extraction (`extract_text_from_pdf`) and the
  file-metadata probe (`get_pdf_info`);
* `app.py`               — the analysis pipeline around them (`run_analysis`).

External effects (the provider SDK call, the PDF parsing library) are modelled
as explicit inputs: an oracle function for the provider, an inductive datatype
for the outcome of opening and reading a PDF.  Python dictionaries are embedded
as association lists of `PyVal` values so that statements about which keys a
returned record carries are directly expressible.
-/

set_option maxRecDepth 100000

namespace ResumeAnalyzer

/-- Embedding of the Python values that appear in the dictionaries the
repository returns: `None`, booleans, integers, rationals (for the rounded
kilobyte size) and strings. -/
inductive PyVal where
  | pyNone : PyVal
  | pyBool : Bool → PyVal
  | pyInt  : Int → PyVal
  | pyRat  : ℚ → PyVal
  | pyStr  : String → PyVal
deriving DecidableEq

/-- A Python dictionary literal: keys in source order with their values. -/
abbrev Dict := List (String × PyVal)

/-- Keys of a dictionary, in order. -/
def dictKeys (d : Dict) : List String := d.map Prod.fst

/-- Lookup of a key in a dictionary, as Python `d[k]` would find it. -/
def dictGet (d : Dict) (k : String) : Option PyVal := List.lookup k d

/-- Occurrence of `pat` as a contiguous substring of `s`, the embedding of the
Python expression `pat in s` on strings. -/
def charsContain (s pat : List Char) : Bool :=
  match s with
  | [] => pat.isEmpty
  | _ :: rest => pat.isPrefixOf s || charsContain rest pat

/-- String version of `charsContain`. -/
def strContains (s pat : String) : Bool := charsContain s.toList pat.toList

/-- Python `s.upper()` (ASCII case map; the keywords the source tests are all
ASCII). -/
def upperStr (s : String) : String := String.mk (s.toList.map Char.toUpper)

/-- Python `s.lower()` (ASCII case map; the keywords the source tests are all
ASCII). -/
def lowerStr (s : String) : String := String.mk (s.toList.map Char.toLower)

/-- The default whitespace set of Python `str.strip()`. -/
def isPyWs (c : Char) : Bool :=
  c = ' ' || c = '\t' || c = '\n' || c = '\r' || c = '\x0b' || c = '\x0c'

/-- Python `s.strip()`: drop leading and trailing whitespace. -/
def stripStr (s : String) : String :=
  String.mk (((s.toList.dropWhile isPyWs).reverse.dropWhile isPyWs).reverse)

/-! ## `src/gemini_engine.py` -/

/-- The single model identifier the engine ever passes to the SDK
(`genai.GenerativeModel('gemini-1.5-flash')`). -/
def geminiModelName : String := "gemini-1.5-flash"

/-- Text of `RESUME_ANALYSIS_PROMPT` before the `resume_text` placeholder. -/
def promptHead : String :=
  "You are an expert resume analyst and career coach. Analyze the following resume and provide a comprehensive, actionable assessment.\n\n## Resume Content:\n"

/-- Text of `RESUME_ANALYSIS_PROMPT` after the `resume_text` placeholder. -/
def promptTail : String :=
  "\n\n---\n\n## Your Analysis Task:\nProvide a detailed analysis in the following structured format. Be specific, constructive, and actionable.\n\n### 📊 OVERALL SCORE\nRate this resume out of 100, considering:\n- Content quality and relevance\n- Structure and formatting\n- ATS (Applicant Tracking System) compatibility\n- Impact and achievements presentation\n\nProvide the score as: **Score: X/100**\n\n### 💪 KEY STRENGTHS (Top 3-5)\nList the strongest aspects of this resume with brief explanations.\n\n### 🔧 AREAS FOR IMPROVEMENT (Top 3-5)\nIdentify specific weaknesses with constructive suggestions for improvement.\n\n### 🤖 ATS COMPATIBILITY\nEvaluate how well this resume would perform with Applicant Tracking Systems:\n- Keyword optimization\n- Format compatibility\n- Section headers\n- Overall ATS score (High/Medium/Low)\n\n### 📝 SPECIFIC RECOMMENDATIONS\nProvide 3-5 actionable recommendations, prioritized by impact:\n1. [Highest Priority]\n2. [High Priority]\n3. [Medium Priority]\n(Add more if needed)\n\n### ✨ QUICK WINS\nList 2-3 small changes that could make an immediate positive impact.\n\n### 🎯 TAILORING SUGGESTIONS\nTips for tailoring this resume to specific job applications or industries.\n\nBe thorough but concise. Focus on actionable insights that will genuinely help improve this resume.\n"

/-- The literal template `RESUME_ANALYSIS_PROMPT`, with its placeholder. -/
def RESUME_ANALYSIS_PROMPT : String := promptHead ++ "\x7bresume_text\x7d" ++ promptTail

/-- `RESUME_ANALYSIS_PROMPT.format(resume_text=resume_text)`. -/
def formatPrompt (resume_text : String) : String := promptHead ++ resume_text ++ promptTail

/-- The fields of the SDK response object that `analyze_resume` inspects:
`response.parts` (the list of content parts, empty when the provider blocked
the request) and `response.text` (the response body). -/
structure GenaiResponse where
  parts : List String
  text  : String
deriving DecidableEq

/-- Outcome of one `model.generate_content(prompt, ...)` call: either a
response object, or a raised exception whose `str(e)` is the given message. -/
inductive GenaiCall where
  | ok  : GenaiResponse → GenaiCall
  | exn : String → GenaiCall
deriving DecidableEq

/-- The provider oracle: what the SDK does for a given model name and prompt.
This is the only effectful boundary of `analyze_resume`. -/
abbrev GenOracle := String → String → GenaiCall

/-- Message returned when `response.parts` is empty (safety block). -/
def blockedMessage : String :=
  "The analysis was blocked. Please ensure your resume contains appropriate content."

/-- Canned message for the API-key classification branch. -/
def invalidApiKeyMessage : String :=
  "❌ **Invalid API Key**\n\nPlease check your Google API key and try again."

/-- Canned message for the quota classification branch. -/
def quotaMessage : String :=
  "❌ **API Quota Exceeded**\n\nYou've reached the API usage limit. Please try again later."

/-- Canned message for the network classification branch. -/
def connectionMessage : String :=
  "❌ **Connection Error**\n\nUnable to reach the Gemini API. Please check your internet connection."

/-- The keyword tests of the `except` branch of `analyze_resume`: true when
one of the recognised error categories matches `str(e)`. -/
def errRecognized (error_message : String) : Bool :=
  strContains (upperStr error_message) "API_KEY" ||
  strContains (lowerStr error_message) "invalid" ||
  strContains (lowerStr error_message) "quota" ||
  strContains (lowerStr error_message) "network" ||
  strContains (lowerStr error_message) "connection"

/-- The `except Exception as e` branch of `analyze_resume`: maps `str(e)` to
the user-facing error message by keyword inspection. -/
def classifyError (error_message : String) : String :=
  if strContains (upperStr error_message) "API_KEY" ||
      strContains (lowerStr error_message) "invalid" then
    invalidApiKeyMessage
  else if strContains (lowerStr error_message) "quota" then
    quotaMessage
  else if strContains (lowerStr error_message) "network" ||
      strContains (lowerStr error_message) "connection" then
    connectionMessage
  else
    "❌ **Analysis Failed**\n\nAn error occurred: " ++ error_message

/-- `analyze_resume(resume_text, api_key)` together with the list of model
identifiers handed to the SDK during the run (the invocation trace).

The body mirrors the source: configure the SDK with `api_key` (a pure store of
the credential, which does not fail), build `gemini-1.5-flash`, format the
prompt, issue exactly one `generate_content` call, then either return the
blocked record (empty `response.parts`), the success record, or — for a raised
exception — the classified failure record.  Every branch returns a
three-field dictionary `{success, analysis, error}`. -/
def analyze_resume_run (resume_text api_key : String) (gen : GenOracle) :
    Dict × List String :=
  match gen geminiModelName (formatPrompt resume_text) with
  | .ok response =>
      if response.parts = [] then
        ([("success", .pyBool false), ("analysis", .pyNone),
          ("error", .pyStr blockedMessage)], [geminiModelName])
      else
        ([("success", .pyBool true), ("analysis", .pyStr response.text),
          ("error", .pyNone)], [geminiModelName])
  | .exn e =>
      ([("success", .pyBool false), ("analysis", .pyNone),
        ("error", .pyStr (classifyError e))], [geminiModelName])

/-- The dictionary returned by `analyze_resume`. -/
def analyze_resume (resume_text api_key : String) (gen : GenOracle) : Dict :=
  (analyze_resume_run resume_text api_key gen).1

/-! ## `src/pdf_loader.py` -/

/-- What reading the uploaded bytes through `pdfplumber` produced: the list of
per-page `page.extract_text()` results (`None` or a string), a
`PDFSyntaxError`, or any other raised exception with its `str(e)`. -/
inductive PdfReadResult where
  | parsed : List (Option String) → PdfReadResult
  | syntaxError : PdfReadResult
  | otherError : String → PdfReadResult
deriving DecidableEq

/-- The Python truthiness test `if page_text:` on one page result: `None` and
the empty string are skipped. -/
def pageKept (page_text : Option String) : Option String :=
  match page_text with
  | some t => if t = "" then none else some t
  | none => none

/-- The `extracted_text` list accumulated by the page loop. -/
def keptPages (pages : List (Option String)) : List String :=
  pages.filterMap pageKept

/-- The `total_chars` accumulator: `len(page_text.strip())` summed over the
kept pages. -/
def totalChars (pages : List (Option String)) : Nat :=
  ((keptPages pages).map (fun t => (stripStr t).length)).sum

/-- Grouping of the digit characters of a decimal rendering in threes from the
right, the embedding of Python format `:,`. -/
def groupDigitsAux : Nat → List Char → List Char
  | _, [] => []
  | k, c :: rest =>
      if k = 3 then
        if rest.isEmpty then [c] else c :: ',' :: groupDigitsAux 1 rest
      else c :: groupDigitsAux (k + 1) rest

/-- `commaSep n` renders `n` with thousands separators, as `f"-\x7bn:,\x7d"`. -/
def commaSep (n : Nat) : String :=
  String.mk (groupDigitsAux 1 (toString n).toList.reverse).reverse

/-- The scanned-PDF rejection message, with `total_chars` interpolated. -/
def scannedPdfMessage (total_chars : Nat) : String :=
  "❌ **Scanned PDF Detected**\n\nThis PDF appears to be a scanned image with minimal extractable text (only "
    ++ toString total_chars
    ++ " characters found).\n\n**Please upload a text-based PDF** that was created digitally (e.g., exported from Word, Google Docs, or a PDF editor).\n\n💡 *Tip: If you only have a scanned copy, use an OCR tool to convert it first.*"

/-- The extraction success message, with `total_chars` (comma-grouped) and the
page count interpolated. -/
def extractSuccessMessage (total_chars numPages : Nat) : String :=
  "✅ Successfully extracted " ++ commaSep total_chars ++ " characters from "
    ++ toString numPages ++ " page(s)."

/-- The invalid-format message of the `PDFSyntaxError` handler. -/
def invalidPdfMessage : String :=
  "❌ **Invalid PDF Format**\n\nThe uploaded file is not a valid PDF or is corrupted."

/-- `extract_text_from_pdf(uploaded_file)`: returns the tuple
`(success, message, extracted_text)` of the source.  The page loop is embedded
through `keptPages`/`totalChars`; `min_expected_chars` is the literal 100. -/
def extract_text_from_pdf (f : PdfReadResult) : Bool × String × Option String :=
  match f with
  | .parsed pages =>
      if pages.length = 0 then
        (false, "❌ The PDF file appears to be empty.", none)
      else
        let full_text := String.intercalate "\n\n" (keptPages pages)
        if totalChars pages < 100 then
          (false, scannedPdfMessage (totalChars pages), none)
        else
          (true, extractSuccessMessage (totalChars pages) pages.length, some full_text)
  | .syntaxError => (false, invalidPdfMessage, none)
  | .otherError e =>
      (false, "❌ **Error Processing PDF**\n\nAn unexpected error occurred: " ++ e, none)

/-- What `pdfplumber.open` did inside `get_pdf_info`: opened the document with
a page count, or raised. -/
inductive PdfOpenResult where
  | opened : Nat → PdfOpenResult
  | failed : PdfOpenResult
deriving DecidableEq

/-- Round-half-to-even of the fraction `num / den` (`den > 0`), on naturals. -/
def roundHalfEvenDiv (num den : Nat) : Nat :=
  let q := num / den
  let r := num % den
  if 2 * r < den then q
  else if den < 2 * r then q + 1
  else if q % 2 = 0 then q else q + 1

/-- The Python expression `round(len(uploaded_file.getvalue()) / 1024, 2)`,
modelled exactly on rationals as round-half-even at two decimals (the source
computes it on a binary float; no claim inspects the value). -/
def round2KbOfBytes (sizeBytes : Nat) : ℚ :=
  mkRat (roundHalfEvenDiv (sizeBytes * 100) 1024) 100

/-- `get_pdf_info(uploaded_file)`: the metadata probe.  `filename` and
`sizeBytes` stand for `uploaded_file.name` and `len(uploaded_file.getvalue())`,
plain attribute reads of the upload object.  Both branches of the source
return a dictionary with the same four keys. -/
def get_pdf_info (filename : String) (sizeBytes : Nat) (r : PdfOpenResult) : Dict :=
  match r with
  | .opened numPages =>
      [("filename", .pyStr filename), ("size_kb", .pyRat (round2KbOfBytes sizeBytes)),
       ("pages", .pyInt numPages), ("valid", .pyBool true)]
  | .failed =>
      [("filename", .pyStr filename), ("size_kb", .pyRat (round2KbOfBytes sizeBytes)),
       ("pages", .pyInt 0), ("valid", .pyBool false)]

/-! ## `app.py` (the analyze-button path of `main`) -/

/-- The user-visible outcome of one press of the analyze button. -/
inductive AppStep where
  | apiKeyError : AppStep
  | extractError : String → AppStep
  | analysisShown : PyVal → AppStep
  | engineError : PyVal → AppStep
deriving DecidableEq

/-- The truthiness test `if result["success"]:` on the engine record. -/
def pyTruthy (v : Option PyVal) : Bool :=
  match v with
  | some (.pyBool b) => b
  | some (.pyStr s) => s ≠ ""
  | some (.pyInt n) => n ≠ 0
  | _ => false

/-- The pipeline of `main` from the analyze-button press on (`app.py` lines
336–365): validate the key, extract text, then — only on extraction success —
call `analyze_resume` and render.  The second component is the list of model
identifiers invoked during the run (empty when the engine was never called).

On extraction success the source passes the extracted text through to
`analyze_resume`; `extract_text_from_pdf` returns `some` text exactly on
success, and `Option.getD` merely discharges the typing. -/
def run_analysis (api_key : String) (f : PdfReadResult) (gen : GenOracle) :
    AppStep × List String :=
  if api_key = "" ∨ api_key = "your_api_key_here" then
    (.apiKeyError, [])
  else
    match extract_text_from_pdf f with
    | (false, message, _) => (.extractError message, [])
    | (true, _, text) =>
        let (result, invoked) := analyze_resume_run (text.getD "") api_key gen
        if pyTruthy (dictGet result "success") then
          (.analysisShown ((dictGet result "analysis").getD .pyNone), invoked)
        else
          (.engineError ((dictGet result "error").getD .pyNone), invoked)

/-! ## Model Response Normalizer (spec-modelled)

Modelled from the spec: the repository contains no Model Response Normalizer —
no JSON parsing or schema validation exists in any source file.  The component
below follows spec §4.2 word by word: parse the raw text as JSON directly;
failing that, strip leading/trailing code-fence markers (triple-backtick,
optionally tagged `json`) and surrounding whitespace and parse; failing that,
take the greedy outermost brace span and parse; after any successful parse,
require all three keys `score`, `good`, `bad` to be present, otherwise report
an incomplete-schema failure.  The JSON dialect is restricted to the flat
critique shape the spec works with: one object whose values are integers,
strings, or arrays of strings. -/

/-- A JSON value of the flat critique dialect. -/
inductive FlatVal where
  | fint : Int → FlatVal
  | fstr : String → FlatVal
  | farr : List String → FlatVal
deriving DecidableEq

/-- A parsed JSON object: keys in textual order with their values. -/
abbrev FlatObj := List (String × FlatVal)

/-- Decidable equality of normalizer outcomes. -/
instance : DecidableEq (Except String FlatObj) := fun a b =>
  match a, b with
  | .ok x, .ok y =>
      if h : x = y then isTrue (by rw [h]) else isFalse (by intro hc; cases hc; exact h rfl)
  | .error x, .error y =>
      if h : x = y then isTrue (by rw [h]) else isFalse (by intro hc; cases hc; exact h rfl)
  | .ok _, .error _ => isFalse (by intro hc; cases hc)
  | .error _, .ok _ => isFalse (by intro hc; cases hc)

/-- JSON string escaping of one character (quote and backslash). -/
def escChar (c : Char) : List Char :=
  if c = '"' then ['\\', '"']
  else if c = '\\' then ['\\', '\\']
  else [c]

/-- JSON string escaping of a character list. -/
def escChars : List Char → List Char
  | [] => []
  | c :: rest => escChar c ++ escChars rest

/-- A JSON string literal: quote, escaped body, quote. -/
def quoteChars (s : String) : List Char :=
  '"' :: (escChars s.toList ++ ['"'])

/-- The decimal digit character for `d < 10`. -/
def digitChar : Nat → Char
  | 0 => '0' | 1 => '1' | 2 => '2' | 3 => '3' | 4 => '4'
  | 5 => '5' | 6 => '6' | 7 => '7' | 8 => '8' | 9 => '9'
  | _ => '*'

/-- Decimal digits of a natural number, most significant first (fuelled). -/
def natToDigitsAux : Nat → Nat → List Char
  | 0, _ => []
  | fuel + 1, n =>
      if n < 10 then [digitChar n]
      else natToDigitsAux fuel (n / 10) ++ [digitChar (n % 10)]

/-- Decimal digits of a natural number, most significant first. -/
def natToDigits (n : Nat) : List Char := natToDigitsAux (n + 1) n

/-- Decimal rendering of an integer. -/
def intReprChars (n : Int) : List Char :=
  if n < 0 then '-' :: natToDigits n.natAbs else natToDigits n.natAbs

/-- Serialization of a string list as a JSON array body (no brackets),
elements separated by a comma and a space as `json.dumps` does. -/
def serStrList : List String → List Char
  | [] => []
  | [x] => quoteChars x
  | x :: rest => quoteChars x ++ (',' :: ' ' :: serStrList rest)

/-- Serialization of one value of the dialect. -/
def serValChars : FlatVal → List Char
  | .fint n => intReprChars n
  | .fstr s => quoteChars s
  | .farr xs => '[' :: (serStrList xs ++ [']'])

/-- Serialization of the members of an object (no braces), `": "` between key
and value and `", "` between members, as `json.dumps` does. -/
def serPairs : FlatObj → List Char
  | [] => []
  | [(k, v)] => quoteChars k ++ (':' :: ' ' :: serValChars v)
  | (k, v) :: rest => quoteChars k ++ (':' :: ' ' :: (serValChars v ++ (',' :: ' ' :: serPairs rest)))

/-- Serialization of an object of the dialect. -/
def serObjChars (o : FlatObj) : List Char := '\x7b' :: (serPairs o ++ ['\x7d'])

/-- JSON serialization of an object, as a string. -/
def serializeFlatObj (o : FlatObj) : String := String.mk (serObjChars o)

/-- Wrapping of a payload in code-fence markers tagged `json`. -/
def fenceWrap (s : String) : String := "```json\n" ++ s ++ "\n```"

/-- JSON insignificant whitespace. -/
def isJsonWs (c : Char) : Bool := c = ' ' || c = '\t' || c = '\n' || c = '\r'

/-- Skip insignificant whitespace. -/
def skipWs (cs : List Char) : List Char := cs.dropWhile isJsonWs

/-- Parse a string body after the opening quote: characters up to the closing
quote, a backslash escaping the character after it. -/
def parseStrChars : List Char → Option (List Char × List Char)
  | [] => none
  | c :: rest =>
      if c = '"' then some ([], rest)
      else if c = '\\' then
        match rest with
        | [] => none
        | c2 :: rest2 => (parseStrChars rest2).map (fun p => (c2 :: p.1, p.2))
      else (parseStrChars rest).map (fun p => (c :: p.1, p.2))

/-- Parse a JSON string literal. -/
def parseStringTok : List Char → Option (String × List Char)
  | [] => none
  | c :: rest =>
      if c = '"' then (parseStrChars rest).map (fun p => (String.mk p.1, p.2))
      else none

/-- Numeric value of a digit character. -/
def digitVal (c : Char) : Nat := c.toNat - 48

/-- Consume a maximal run of digits, accumulating the value. -/
def parseDigitsGo (acc : Nat) : List Char → Nat × List Char
  | [] => (acc, [])
  | c :: rest =>
      if c.isDigit then parseDigitsGo (10 * acc + digitVal c) rest
      else (acc, c :: rest)

/-- Parse a natural-number literal (at least one digit). -/
def parseNatTok (cs : List Char) : Option (Nat × List Char) :=
  match cs with
  | [] => none
  | c :: _ => if c.isDigit then some (parseDigitsGo 0 cs) else none

/-- Parse an integer literal with optional leading minus sign. -/
def parseIntTok (cs : List Char) : Option (Int × List Char) :=
  match cs with
  | [] => none
  | c :: rest =>
      if c = '-' then (parseNatTok rest).map (fun p => (-(p.1 : Int), p.2))
      else (parseNatTok cs).map (fun p => ((p.1 : Int), p.2))

/-- Parse the elements of a non-empty string array, positioned at the first
element; consumes the closing bracket. -/
def parseArrRest : Nat → List Char → Option (List String × List Char)
  | 0, _ => none
  | fuel + 1, cs =>
      (parseStringTok cs).bind (fun p =>
        match skipWs p.2 with
        | [] => none
        | c :: r2 =>
            if c = ',' then (parseArrRest fuel (skipWs r2)).map (fun q => (p.1 :: q.1, q.2))
            else if c = ']' then some ([p.1], r2)
            else none)

/-- Parse a JSON array of strings. -/
def parseArrTok (fuel : Nat) (cs : List Char) : Option (List String × List Char) :=
  match cs with
  | [] => none
  | c :: rest =>
      if c = '[' then
        match skipWs rest with
        | [] => none
        | c2 :: r2 => if c2 = ']' then some ([], r2) else parseArrRest fuel (c2 :: r2)
      else none

/-- Parse one value of the dialect, dispatching on the first character. -/
def parseValTok (fuel : Nat) (cs : List Char) : Option (FlatVal × List Char) :=
  match cs with
  | [] => none
  | c :: _ =>
      if c = '"' then (parseStringTok cs).map (fun p => (.fstr p.1, p.2))
      else if c = '[' then (parseArrTok fuel cs).map (fun p => (.farr p.1, p.2))
      else (parseIntTok cs).map (fun p => (.fint p.1, p.2))

/-- Parse the members of a non-empty object, positioned at the first key;
consumes the closing brace. -/
def parsePairsRest : Nat → List Char → Option (FlatObj × List Char)
  | 0, _ => none
  | fuel + 1, cs =>
      (parseStringTok cs).bind (fun pk =>
        match skipWs pk.2 with
        | [] => none
        | c :: r2 =>
            if c = ':' then
              (parseValTok fuel (skipWs r2)).bind (fun pv =>
                match skipWs pv.2 with
                | [] => none
                | c2 :: r4 =>
                    if c2 = ',' then
                      (parsePairsRest fuel (skipWs r4)).map
                        (fun q => ((pk.1, pv.1) :: q.1, q.2))
                    else if c2 = '\x7d' then some ([(pk.1, pv.1)], r4)
                    else none)
            else none)

/-- Parse a JSON object of the dialect. -/
def parseObjTok (fuel : Nat) (cs : List Char) : Option (FlatObj × List Char) :=
  match cs with
  | [] => none
  | c :: rest =>
      if c = '\x7b' then
        match skipWs rest with
        | [] => none
        | c2 :: r2 => if c2 = '\x7d' then some ([], r2) else parsePairsRest fuel (c2 :: r2)
      else none

/-- Parse a whole text as one JSON object of the dialect: leading whitespace,
the object, trailing whitespace, nothing else. -/
def parseJsonText (cs : List Char) : Option FlatObj :=
  match parseObjTok ((skipWs cs).length + 1) (skipWs cs) with
  | some (o, rest) => if (skipWs rest).isEmpty then some o else none
  | none => none

/-- Strip leading and trailing whitespace (shared with the extractor
embedding), on character lists. -/
def stripChars (cs : List Char) : List Char :=
  ((cs.dropWhile isPyWs).reverse.dropWhile isPyWs).reverse

/-- Drop a leading triple-backtick fence marker, optionally tagged `json`. -/
def stripFencesFront (cs1 : List Char) : List Char :=
  if ("```json".toList).isPrefixOf cs1 then cs1.drop 7
  else if ("```".toList).isPrefixOf cs1 then cs1.drop 3
  else cs1

/-- Drop a trailing triple-backtick fence marker. -/
def stripFencesBack (cs2 : List Char) : List Char :=
  if ("```".toList).isSuffixOf cs2 then (cs2.reverse.drop 3).reverse
  else cs2

/-- Spec §4.2 step 2: strip surrounding whitespace and any leading/trailing
triple-backtick fence markers, the leading one optionally tagged `json`. -/
def stripFences (cs : List Char) : List Char :=
  stripChars (stripFencesBack (stripFencesFront (stripChars cs)))

/-- Spec §4.2 step 3: the greedy outermost brace span — from the first
opening brace to the last closing brace. -/
def braceSpan (cs : List Char) : List Char :=
  ((cs.dropWhile (fun c => ¬ (c = '\x7b'))).reverse.dropWhile (fun c => ¬ (c = '\x7d'))).reverse

/-- Whether a character list starts with a digit (a maximal digit run would
continue into it). -/
def headIsDigit : List Char → Bool
  | [] => false
  | c :: _ => c.isDigit

/-- Fuel a value consumes during parsing: one unit per array element. -/
def valFuel : FlatVal → Nat
  | .farr xs => xs.length
  | _ => 0

/-- Fuel an object consumes during parsing: one unit per member plus the fuel
of its values. -/
def objFuel : FlatObj → Nat
  | [] => 0
  | (_, v) :: rest => 1 + valFuel v + objFuel rest

/-- Presence of the three required keys of a critique mapping. -/
def hasRequiredKeys (o : FlatObj) : Bool :=
  (List.lookup "score" o).isSome && (List.lookup "good" o).isSome &&
  (List.lookup "bad" o).isSome

/-- The schema-error outcome for a mapping missing a required key. -/
def schemaErrorMessage : String := "incomplete schema: missing score, good or bad"

/-- The decode-failure outcome when no parse strategy succeeds. -/
def decodeErrorMessage : String := "could not parse a JSON object from the model reply"

/-- Schema validation after a successful parse: all three keys must be
present; a mapping missing one is rejected, never default-filled. -/
def validateSchema (o : FlatObj) : Except String FlatObj :=
  if hasRequiredKeys o then .ok o else .error schemaErrorMessage

/-- The Model Response Normalizer (modelled from spec §4.2): direct parse,
then fence-stripped parse, then brace-span parse, first success wins; then
schema validation; all strategies failing reports the decode failure. -/
def normalize (raw : String) : Except String FlatObj :=
  match parseJsonText raw.toList with
  | some o => validateSchema o
  | none =>
      match parseJsonText (stripFences raw.toList) with
      | some o => validateSchema o
      | none =>
          match parseJsonText (braceSpan raw.toList) with
          | some o => validateSchema o
          | none => .error decodeErrorMessage

/-! ## General lemmas -/

/-- Digit characters are digits. -/
theorem digitChar_isDigit : ∀ d, d < 10 → (digitChar d).isDigit = true := by decide

/-- Digit characters carry their value. -/
theorem digitVal_digitChar : ∀ d, d < 10 → digitVal (digitChar d) = d := by decide

/-- A digit character is not JSON whitespace. -/
theorem isJsonWs_of_isDigit (c : Char) (h : c.isDigit = true) : isJsonWs c = false := by
  simp only [isJsonWs, Bool.or_eq_false_iff, decide_eq_false_iff_not]
  refine ⟨⟨⟨?_, ?_⟩, ?_⟩, ?_⟩ <;> rintro rfl <;> exact absurd h (by decide)

/-- The fuelled digit expansion does not depend on the fuel once
sufficient. -/
theorem natToDigitsAux_irrel (n : Nat) : ∀ f1 f2, n < f1 → n < f2 →
    natToDigitsAux f1 n = natToDigitsAux f2 n := by
  induction n using Nat.strong_induction_on with
  | _ n ih =>
    intro f1 f2 h1 h2
    obtain ⟨a, rfl⟩ : ∃ a, f1 = a + 1 := ⟨f1 - 1, by omega⟩
    obtain ⟨b, rfl⟩ : ∃ b, f2 = b + 1 := ⟨f2 - 1, by omega⟩
    simp only [natToDigitsAux]
    by_cases hn : n < 10
    · simp [hn]
    · have hd : n / 10 < n := Nat.div_lt_self (by omega) (by omega)
      simp only [hn, if_false]
      rw [ih (n / 10) hd a b (by omega) (by omega)]

/-- The digit expansion is non-empty. -/
theorem natToDigitsAux_ne_nil (f n : Nat) (h : n < f) : natToDigitsAux f n ≠ [] := by
  obtain ⟨a, rfl⟩ : ∃ a, f = a + 1 := ⟨f - 1, by omega⟩
  simp only [natToDigitsAux]
  by_cases hn : n < 10 <;> simp [hn]

/-- Every character of the digit expansion is a digit. -/
theorem natToDigitsAux_digits (f : Nat) : ∀ n c, c ∈ natToDigitsAux f n → c.isDigit = true := by
  induction f with
  | zero => intro n c hc; simp [natToDigitsAux] at hc
  | succ f ih =>
      intro n c hc
      simp only [natToDigitsAux] at hc
      by_cases hn : n < 10
      · simp [hn] at hc; subst hc; exact digitChar_isDigit n hn
      · simp [hn] at hc
        rcases hc with hc | hc
        · exact ih _ _ hc
        · subst hc; exact digitChar_isDigit _ (Nat.mod_lt _ (by omega))

/-- Folding the positional accumulator over the digit expansion recovers the
number. -/
theorem foldl_natToDigitsAux (f : Nat) : ∀ n, n < f → ∀ acc,
    List.foldl (fun a c => 10 * a + digitVal c) acc (natToDigitsAux f n) =
      acc * 10 ^ (natToDigitsAux f n).length + n := by
  induction f with
  | zero => omega
  | succ f ih =>
      intro n hnf acc
      simp only [natToDigitsAux]
      by_cases hn : n < 10
      · simp only [hn, if_true, List.foldl, List.length_singleton,
          digitVal_digitChar n hn, pow_one]
        omega
      · have hdlt : n / 10 < n := Nat.div_lt_self (by omega) (by omega)
        have hd : n / 10 < f := by omega
        simp only [hn, if_false, List.foldl_append, List.length_append, List.foldl,
          List.length_singleton, digitVal_digitChar _ (Nat.mod_lt _ (by omega))]
        rw [ih (n / 10) hd acc, pow_succ, Nat.mul_add]
        have hmod : 10 * (n / 10) + n % 10 = n := by omega
        ring_nf
        omega

/-- Parsing a digit run followed by a non-digit continuation folds exactly
the run. -/
theorem parseDigitsGo_append (ds : List Char) : ∀ acc rest,
    (∀ c ∈ ds, c.isDigit = true) → headIsDigit rest = false →
    parseDigitsGo acc (ds ++ rest) =
      (List.foldl (fun a c => 10 * a + digitVal c) acc ds, rest) := by
  induction ds with
  | nil =>
      intro acc rest _ hrest
      cases rest with
      | nil => rfl
      | cons c r =>
          simp only [headIsDigit] at hrest
          simp [parseDigitsGo, hrest]
  | cons d ds ih =>
      intro acc rest hds hrest
      have hd : d.isDigit = true := hds d (by simp)
      simp only [List.cons_append, parseDigitsGo, hd, if_true, List.foldl]
      exact ih _ _ (fun c hc => hds c (by simp [hc])) hrest

/-- Parsing the rendered natural number recovers it. -/
theorem parseNatTok_ser (n : Nat) (rest : List Char) (hrest : headIsDigit rest = false) :
    parseNatTok (natToDigits n ++ rest) = some (n, rest) := by
  have hne : natToDigits n ≠ [] := natToDigitsAux_ne_nil _ _ (by omega)
  obtain ⟨c, l, hcl⟩ := List.exists_cons_of_ne_nil hne
  have hmem : c ∈ natToDigits n := by rw [hcl]; simp
  have hdig : c.isDigit = true := natToDigitsAux_digits _ _ c hmem
  have hgo := parseDigitsGo_append (natToDigits n) 0 rest
    (fun c hc => natToDigitsAux_digits _ _ c hc) hrest
  have hval := foldl_natToDigitsAux (n + 1) n (by omega) 0
  rw [hcl, List.cons_append]
  simp only [parseNatTok, hdig, if_true]
  rw [← List.cons_append, ← hcl, hgo]
  have hval2 : List.foldl (fun a c => 10 * a + digitVal c) 0 (natToDigits n) = n := by
    unfold natToDigits
    rw [hval]
    simp
  rw [hval2]

/-- Parsing the rendered integer recovers it. -/
theorem parseIntTok_ser (n : Int) (rest : List Char) (hrest : headIsDigit rest = false) :
    parseIntTok (intReprChars n ++ rest) = some (n, rest) := by
  by_cases hn : n < 0
  · simp only [intReprChars, hn, if_true, List.cons_append]
    simp only [parseIntTok, if_pos rfl]
    rw [parseNatTok_ser _ _ hrest]
    have habs : -((n.natAbs : Nat) : Int) = n := by omega
    show some (-((n.natAbs : Nat) : Int), rest) = some (n, rest)
    rw [habs]
  · simp only [intReprChars, hn, if_false]
    have hne : natToDigits n.natAbs ≠ [] := natToDigitsAux_ne_nil _ _ (by omega)
    obtain ⟨c, l, hcl⟩ := List.exists_cons_of_ne_nil hne
    have hmem : c ∈ natToDigits n.natAbs := by rw [hcl]; simp
    have hdig : c.isDigit = true := natToDigitsAux_digits _ _ c hmem
    have hcm : ¬ (c = '-') := by rintro rfl; exact absurd hdig (by decide)
    rw [hcl, List.cons_append]
    simp only [parseIntTok, hcm, if_false]
    rw [← List.cons_append, ← hcl, parseNatTok_ser _ _ hrest]
    have habs : ((n.natAbs : Nat) : Int) = n := by omega
    show some (((n.natAbs : Nat) : Int), rest) = some (n, rest)
    rw [habs]

/-- Parsing an escaped string body with its closing quote recovers the
characters. -/
theorem parseStrChars_esc (cl : List Char) : ∀ rest,
    parseStrChars (escChars cl ++ '"' :: rest) = some (cl, rest) := by
  induction cl with
  | nil =>
      intro rest
      show parseStrChars ('"' :: rest) = some ([], rest)
      rw [parseStrChars.eq_def]
      simp
  | cons c cl ih =>
      intro rest
      simp only [escChars, escChar]
      by_cases h1 : c = '"'
      · subst h1
        have hstep : (['\\', '"'] ++ escChars cl) ++ '"' :: rest =
            '\\' :: '"' :: (escChars cl ++ '"' :: rest) := by simp
        rw [if_pos rfl, hstep,
          show parseStrChars ('\\' :: '"' :: (escChars cl ++ '"' :: rest)) =
            (parseStrChars (escChars cl ++ '"' :: rest)).map
              (fun p => ('"' :: p.1, p.2)) from rfl,
          ih rest]
        rfl
      · by_cases h2 : c = '\\'
        · subst h2
          have hstep : (['\\', '\\'] ++ escChars cl) ++ '"' :: rest =
              '\\' :: '\\' :: (escChars cl ++ '"' :: rest) := by simp
          rw [if_neg h1, if_pos rfl, hstep,
            show parseStrChars ('\\' :: '\\' :: (escChars cl ++ '"' :: rest)) =
              (parseStrChars (escChars cl ++ '"' :: rest)).map
                (fun p => ('\\' :: p.1, p.2)) from rfl,
            ih rest]
          rfl
        · rw [if_neg h1, if_neg h2]
          have hstep : ([c] ++ escChars cl) ++ '"' :: rest =
              c :: (escChars cl ++ '"' :: rest) := by simp
          rw [hstep, parseStrChars.eq_def]
          simp only [h1, h2, if_false]
          rw [ih rest]
          rfl

/-- Parsing a serialized string literal recovers the string. -/
theorem parseStringTok_quote (s : String) (rest : List Char) :
    parseStringTok (quoteChars s ++ rest) = some (s, rest) := by
  simp only [quoteChars, List.cons_append, List.append_assoc, List.singleton_append]
  simp only [parseStringTok, if_pos rfl]
  rw [parseStrChars_esc]
  rfl

/-- Skipping whitespace leaves a list whose head is not whitespace
unchanged. -/
theorem skipWs_not_ws (c : Char) (l : List Char) (h : isJsonWs c = false) :
    skipWs (c :: l) = c :: l := by
  simp [skipWs, List.dropWhile_cons, h]

/-- Skipping whitespace drops a whitespace head. -/
theorem skipWs_ws (c : Char) (l : List Char) (h : isJsonWs c = true) :
    skipWs (c :: l) = skipWs l := by
  simp [skipWs, List.dropWhile_cons, h]

/-- A non-empty serialized array body starts with a quote. -/
theorem serStrList_head (xs : List String) (h : xs ≠ []) :
    ∃ l, serStrList xs = '"' :: l := by
  cases xs with
  | nil => exact absurd rfl h
  | cons x ys => cases ys <;> exact ⟨_, rfl⟩

/-- A non-empty serialized member list starts with a quote. -/
theorem serPairs_head (o : FlatObj) (h : o ≠ []) : ∃ l, serPairs o = '"' :: l := by
  cases o with
  | nil => exact absurd rfl h
  | cons p rest =>
      obtain ⟨k, v⟩ := p
      cases rest <;> exact ⟨_, rfl⟩

/-- A serialized value starts with a non-whitespace character. -/
theorem serVal_head_not_ws (v : FlatVal) :
    ∃ c l, serValChars v = c :: l ∧ isJsonWs c = false := by
  cases v with
  | fint n =>
      simp only [serValChars, intReprChars]
      by_cases hn : n < 0
      · exact ⟨'-', _, by rw [if_pos hn], by decide⟩
      · have hne : natToDigits n.natAbs ≠ [] := natToDigitsAux_ne_nil _ _ (by omega)
        obtain ⟨c, l, hcl⟩ := List.exists_cons_of_ne_nil hne
        have hmem : c ∈ natToDigits n.natAbs := by rw [hcl]; simp
        have hdig : c.isDigit = true := natToDigitsAux_digits _ _ c hmem
        exact ⟨c, l, by rw [if_neg hn, hcl], isJsonWs_of_isDigit c hdig⟩
  | fstr s => exact ⟨'"', _, rfl, by decide⟩
  | farr xs => exact ⟨'[', _, rfl, by decide⟩

/-- Whitespace skipping leaves a serialized value in place. -/
theorem skipWs_serVal (v : FlatVal) (rest : List Char) :
    skipWs (serValChars v ++ rest) = serValChars v ++ rest := by
  obtain ⟨c, l, hv, hc⟩ := serVal_head_not_ws v
  rw [hv, List.cons_append, skipWs_not_ws _ _ hc]

/-- The head test of `headIsDigit` on a cons. -/
theorem headIsDigit_cons (c : Char) (l : List Char) : headIsDigit (c :: l) = c.isDigit := rfl

/-- Parsing the serialized elements of a non-empty array, with the closing
bracket, recovers the elements. -/
theorem parseArrRest_ser (xs : List String) : ∀ fuel rest, xs ≠ [] → xs.length ≤ fuel →
    parseArrRest fuel (serStrList xs ++ ']' :: rest) = some (xs, rest) := by
  induction xs with
  | nil => intro fuel rest h _; exact absurd rfl h
  | cons x ys ih =>
      intro fuel rest _ hfuel
      obtain ⟨f, rfl⟩ : ∃ f, fuel = f + 1 := ⟨fuel - 1, by simp at hfuel; omega⟩
      cases ys with
      | nil =>
          simp only [serStrList, parseArrRest]
          rw [parseStringTok_quote x (']' :: rest)]
          rw [Option.some_bind]
          rw [skipWs_not_ws ']' rest (by decide)]
          simp
      | cons y ys2 =>
          simp only [serStrList, List.cons_append, List.append_assoc, parseArrRest]
          rw [parseStringTok_quote x _]
          rw [Option.some_bind]
          rw [skipWs_not_ws ',' _ (by decide)]
          simp only [if_pos rfl]
          rw [skipWs_ws ' ' _ (by decide)]
          obtain ⟨l, hl⟩ := serStrList_head (y :: ys2) (by simp)
          rw [hl, List.cons_append, skipWs_not_ws '"' _ (by decide), ← List.cons_append, ← hl]
          rw [ih f rest (by simp) (by simp at hfuel ⊢; omega)]
          rfl

/-- Parsing a serialized string array recovers it. -/
theorem parseArrTok_ser (xs : List String) (fuel : Nat) (rest : List Char)
    (hfuel : xs.length ≤ fuel) :
    parseArrTok fuel (('[' :: (serStrList xs ++ [']'])) ++ rest) = some (xs, rest) := by
  cases xs with
  | nil =>
      have hsh : (('[' :: (serStrList ([] : List String) ++ [']'])) ++ rest) =
          '[' :: (']' :: rest) := by simp [serStrList]
      rw [hsh, parseArrTok.eq_def]
      simp only [if_pos rfl]
      rw [skipWs_not_ws ']' rest (by decide)]
      simp
  | cons x ys =>
      have hsh : (('[' :: (serStrList (x :: ys) ++ [']'])) ++ rest) =
          '[' :: (serStrList (x :: ys) ++ ']' :: rest) := by simp
      rw [hsh, parseArrTok.eq_def]
      simp only [if_pos rfl]
      obtain ⟨l, hl⟩ := serStrList_head (x :: ys) (by simp)
      rw [hl, List.cons_append, skipWs_not_ws '"' _ (by decide)]
      have hq : ¬ (('"' : Char) = ']') := by decide
      simp only [hq, if_false]
      rw [← List.cons_append, ← hl]
      exact parseArrRest_ser (x :: ys) fuel rest (by simp) hfuel

/-- Parsing a serialized value recovers it, whatever non-digit continuation
follows. -/
theorem parseValTok_ser (v : FlatVal) (fuel : Nat) (rest : List Char)
    (hfuel : valFuel v ≤ fuel) (hrest : headIsDigit rest = false) :
    parseValTok fuel (serValChars v ++ rest) = some (v, rest) := by
  cases v with
  | fstr s =>
      have hq : serValChars (.fstr s) ++ rest = '"' :: ((escChars s.toList ++ ['"']) ++ rest) := by
        simp [serValChars, quoteChars]
      rw [hq, parseValTok.eq_def]
      simp only [if_pos rfl]
      have hq2 : '"' :: ((escChars s.toList ++ ['"']) ++ rest) = quoteChars s ++ rest := by
        simp [quoteChars]
      rw [hq2, parseStringTok_quote s rest]
      rfl
  | farr xs =>
      have hq : serValChars (.farr xs) ++ rest = '[' :: ((serStrList xs ++ [']']) ++ rest) := by
        simp [serValChars]
      rw [hq, parseValTok.eq_def]
      simp only [if_pos rfl, if_neg (by decide : ¬ ('[' = '"'))]
      have hq2 : '[' :: ((serStrList xs ++ [']']) ++ rest) =
          ('[' :: (serStrList xs ++ [']'])) ++ rest := by simp
      rw [hq2, parseArrTok_ser xs fuel rest (by simpa [valFuel] using hfuel)]
      rfl
  | fint n =>
      have hex : ∃ c l, intReprChars n = c :: l ∧ ¬ (c = '"') ∧ ¬ (c = '[') := by
        unfold intReprChars
        by_cases hn : n < 0
        · exact ⟨'-', _, by rw [if_pos hn], by decide, by decide⟩
        · have hne : natToDigits n.natAbs ≠ [] := natToDigitsAux_ne_nil _ _ (by omega)
          obtain ⟨c, l, hcl⟩ := List.exists_cons_of_ne_nil hne
          have hmem : c ∈ natToDigits n.natAbs := by rw [hcl]; simp
          have hdig : c.isDigit = true := natToDigitsAux_digits _ _ c hmem
          refine ⟨c, l, by rw [if_neg hn, hcl], ?_, ?_⟩ <;>
            rintro rfl <;> exact absurd hdig (by decide)
      obtain ⟨c, l, hcl, hc1, hc2⟩ := hex
      have hsv : serValChars (.fint n) = intReprChars n := rfl
      rw [hsv, hcl, List.cons_append, parseValTok.eq_def]
      simp only [hc1, hc2, if_false]
      rw [← List.cons_append, ← hcl, parseIntTok_ser n rest hrest]
      rfl

/-- Parsing the serialized members of a non-empty object, with the closing
brace, recovers the members. -/
theorem parsePairsRest_ser (o : FlatObj) : ∀ fuel rest, o ≠ [] → objFuel o ≤ fuel →
    parsePairsRest fuel (serPairs o ++ '\x7d' :: rest) = some (o, rest) := by
  induction o with
  | nil => intro fuel rest h _; exact absurd rfl h
  | cons p tl ih =>
      obtain ⟨k, v⟩ := p
      intro fuel rest _ hfuel
      obtain ⟨f, rfl⟩ : ∃ f, fuel = f + 1 := ⟨fuel - 1, by simp [objFuel] at hfuel; omega⟩
      have hvf : valFuel v ≤ f := by simp [objFuel] at hfuel; omega
      cases tl with
      | nil =>
          simp only [serPairs, List.cons_append, List.append_assoc, parsePairsRest]
          rw [parseStringTok_quote k _]
          rw [Option.some_bind]
          rw [skipWs_not_ws ':' _ (by decide)]
          simp only [if_pos rfl]
          rw [skipWs_ws ' ' _ (by decide), skipWs_serVal]
          rw [parseValTok_ser v f _ hvf (by rw [headIsDigit_cons]; decide)]
          rw [Option.some_bind]
          rw [skipWs_not_ws '\x7d' _ (by decide)]
          simp
      | cons q tl2 =>
          simp only [serPairs, List.cons_append, List.append_assoc, parsePairsRest]
          rw [parseStringTok_quote k _]
          rw [Option.some_bind]
          rw [skipWs_not_ws ':' _ (by decide)]
          simp only [if_pos rfl]
          rw [skipWs_ws ' ' _ (by decide), skipWs_serVal]
          rw [parseValTok_ser v f _ hvf (by rw [headIsDigit_cons]; decide)]
          rw [Option.some_bind]
          rw [skipWs_not_ws ',' _ (by decide)]
          simp only [if_pos rfl]
          rw [skipWs_ws ' ' _ (by decide)]
          obtain ⟨l, hl⟩ := serPairs_head (q :: tl2) (by simp)
          rw [hl, List.cons_append, skipWs_not_ws '"' _ (by decide), ← List.cons_append, ← hl]
          rw [ih f rest (by simp) (by simp [objFuel] at hfuel ⊢; omega)]
          rfl

/-- Parsing a serialized object recovers it. -/
theorem parseObjTok_ser (o : FlatObj) (fuel : Nat) (rest : List Char)
    (hfuel : objFuel o ≤ fuel) :
    parseObjTok fuel (serObjChars o ++ rest) = some (o, rest) := by
  cases o with
  | nil =>
      have hsh : serObjChars ([] : FlatObj) ++ rest = '\x7b' :: ('\x7d' :: rest) := by
        simp [serObjChars, serPairs]
      rw [hsh, parseObjTok.eq_def]
      simp only [if_pos rfl]
      rw [skipWs_not_ws '\x7d' rest (by decide)]
      simp
  | cons p tl =>
      have hsh : serObjChars (p :: tl) ++ rest =
          '\x7b' :: (serPairs (p :: tl) ++ '\x7d' :: rest) := by
        simp [serObjChars]
      rw [hsh, parseObjTok.eq_def]
      simp only [if_pos rfl]
      obtain ⟨l, hl⟩ := serPairs_head (p :: tl) (by simp)
      rw [hl, List.cons_append, skipWs_not_ws '"' _ (by decide)]
      have hq : ¬ (('"' : Char) = '\x7d') := by decide
      simp only [hq, if_false]
      rw [← List.cons_append, ← hl]
      exact parsePairsRest_ser (p :: tl) fuel rest (by simp) hfuel

/-- A quoted string is at least two characters long. -/
theorem quoteChars_len (s : String) : 2 ≤ (quoteChars s).length := by
  simp [quoteChars]

/-- A serialized array body is at least as long as its element count. -/
theorem serStrList_len (xs : List String) : xs.length ≤ (serStrList xs).length := by
  induction xs with
  | nil => simp [serStrList]
  | cons x ys ih =>
      cases ys with
      | nil =>
          simp only [serStrList, List.length_singleton]
          have := quoteChars_len x
          omega
      | cons y ys2 =>
          simp only [serStrList, List.length_append, List.length_cons] at ih ⊢
          have := quoteChars_len x
          omega

/-- A serialized value is at least as long as the fuel it consumes. -/
theorem valFuel_le (v : FlatVal) : valFuel v ≤ (serValChars v).length := by
  cases v with
  | fint n => simp [valFuel]
  | fstr s => simp [valFuel]
  | farr xs =>
      simp only [valFuel, serValChars, List.length_cons, List.length_append]
      have := serStrList_len xs
      omega

/-- A serialized member list is at least as long as the fuel it consumes. -/
theorem objFuel_le (o : FlatObj) : objFuel o ≤ (serPairs o).length := by
  induction o with
  | nil => simp [objFuel, serPairs]
  | cons p tl ih =>
      obtain ⟨k, v⟩ := p
      cases tl with
      | nil =>
          simp only [objFuel, serPairs, List.length_append, List.length_cons]
          have h1 := quoteChars_len k
          have h2 := valFuel_le v
          simp [objFuel]
          omega
      | cons q tl2 =>
          simp only [objFuel, serPairs, List.length_append, List.length_cons] at ih ⊢
          have h1 := quoteChars_len k
          have h2 := valFuel_le v
          omega

/-- Parsing the full serialized text of an object recovers exactly the
object. -/
theorem parseJsonText_ser (o : FlatObj) : parseJsonText (serObjChars o) = some o := by
  unfold parseJsonText
  have hsh : serObjChars o = '\x7b' :: (serPairs o ++ ['\x7d']) := rfl
  rw [hsh, skipWs_not_ws '\x7b' _ (by decide), ← hsh]
  have hfuel : objFuel o ≤ (serObjChars o).length + 1 := by
    have := objFuel_le o
    simp only [serObjChars, List.length_cons, List.length_append]
    omega
  have h := parseObjTok_ser o ((serObjChars o).length + 1) [] hfuel
  rw [List.append_nil] at h
  rw [h]
  rfl

/-- A text whose first significant character is a backtick parses as no JSON
object. -/
theorem parseJsonText_backtick (l : List Char) : parseJsonText ('\x60' :: l) = none := by
  unfold parseJsonText
  rw [skipWs_not_ws '\x60' _ (by decide)]
  rw [parseObjTok.eq_def]
  simp

/-- The character list of a fence-wrapped payload. -/
theorem fenceWrap_toList (s : String) :
    (fenceWrap s).toList =
      '\x60' :: ('\x60' :: ('\x60' :: ('j' :: ('s' :: ('o' :: ('n' :: ('\n' ::
        (s.toList ++ ['\n', '\x60', '\x60', '\x60'])))))))) := by
  have h1 : (fenceWrap s).toList = ("```json\n" ++ s).toList ++ "\n```".toList :=
    String.data_append _ _
  have h2 : ("```json\n" ++ s).toList = "```json\n".toList ++ s.toList :=
    String.data_append _ _
  rw [h1, h2]
  simp

/-- Stripping leading and trailing whitespace leaves a list with
non-whitespace first and last characters unchanged. -/
theorem stripChars_no_ws (c d : Char) (mid : List Char)
    (hc : isPyWs c = false) (hd : isPyWs d = false) :
    stripChars (c :: (mid ++ [d])) = c :: (mid ++ [d]) := by
  unfold stripChars
  rw [List.dropWhile_cons_of_neg (by simp [hc])]
  have hrev : (c :: (mid ++ [d])).reverse = d :: (mid.reverse ++ [c]) := by
    simp
  rw [hrev, List.dropWhile_cons_of_neg (by simp [hd]), ← hrev, List.reverse_reverse]

/-- Stripping whitespace around a newline-wrapped body with non-whitespace
first and last characters yields the body. -/
theorem stripChars_nl_wrap (c d : Char) (mid : List Char)
    (hc : isPyWs c = false) (hd : isPyWs d = false) :
    stripChars ('\n' :: ((c :: (mid ++ [d])) ++ ['\n'])) = c :: (mid ++ [d]) := by
  unfold stripChars
  rw [List.dropWhile_cons_of_pos (by decide)]
  rw [show (c :: (mid ++ [d])) ++ ['\n'] = c :: ((mid ++ [d]) ++ ['\n']) from by simp]
  rw [List.dropWhile_cons_of_neg (by simp [hc])]
  have hrev : (c :: ((mid ++ [d]) ++ ['\n'])).reverse =
      '\n' :: (d :: (mid.reverse ++ [c])) := by simp
  rw [hrev, List.dropWhile_cons_of_pos (by decide),
    List.dropWhile_cons_of_neg (by simp [hd])]
  simp

/-- Fence stripping of a fence-wrapped brace-delimited payload recovers the
payload. -/
theorem stripFences_fence (m : List Char) :
    stripFences (['\x60', '\x60', '\x60', 'j', 's', 'o', 'n', '\n'] ++
        (('\x7b' :: (m ++ ['\x7d'])) ++ ['\n', '\x60', '\x60', '\x60'])) =
      '\x7b' :: (m ++ ['\x7d']) := by
  unfold stripFences
  have h1 : stripChars (['\x60', '\x60', '\x60', 'j', 's', 'o', 'n', '\n'] ++
      (('\x7b' :: (m ++ ['\x7d'])) ++ ['\n', '\x60', '\x60', '\x60'])) =
      ['\x60', '\x60', '\x60', 'j', 's', 'o', 'n', '\n'] ++
      (('\x7b' :: (m ++ ['\x7d'])) ++ ['\n', '\x60', '\x60', '\x60']) := by
    have hx := stripChars_no_ws '\x60' '\x60'
      (['\x60', '\x60', 'j', 's', 'o', 'n', '\n'] ++
        (('\x7b' :: (m ++ ['\x7d'])) ++ ['\n', '\x60', '\x60'])) (by decide) (by decide)
    simpa using hx
  rw [h1]
  have h2 : stripFencesFront (['\x60', '\x60', '\x60', 'j', 's', 'o', 'n', '\n'] ++
      (('\x7b' :: (m ++ ['\x7d'])) ++ ['\n', '\x60', '\x60', '\x60'])) =
      '\n' :: (('\x7b' :: (m ++ ['\x7d'])) ++ ['\n', '\x60', '\x60', '\x60']) := by
    unfold stripFencesFront
    rw [if_pos (by rfl)]
    rfl
  rw [h2]
  have h3 : stripFencesBack ('\n' :: (('\x7b' :: (m ++ ['\x7d'])) ++ ['\n', '\x60', '\x60', '\x60'])) =
      '\n' :: (('\x7b' :: (m ++ ['\x7d'])) ++ ['\n']) := by
    unfold stripFencesBack
    have hrev : ('\n' :: (('\x7b' :: (m ++ ['\x7d'])) ++ ['\n', '\x60', '\x60', '\x60'])).reverse =
        ['\x60', '\x60', '\x60', '\n'] ++ (('\x7b' :: (m ++ ['\x7d'])).reverse ++ ['\n']) := by
      simp
    have hsuf : (("```".toList).isSuffixOf
        ('\n' :: (('\x7b' :: (m ++ ['\x7d'])) ++ ['\n', '\x60', '\x60', '\x60']))) = true := by
      unfold List.isSuffixOf
      rw [hrev]
      rfl
    rw [if_pos hsuf, hrev]
    simp
  rw [h3]
  exact stripChars_nl_wrap '\x7b' '\x7d' m (by decide) (by decide)

/-- A list contains itself as a substring. -/
theorem charsContain_self (ys : List Char) : charsContain ys ys = true := by
  cases ys with
  | nil => rfl
  | cons c rest =>
      simp only [charsContain]
      rw [List.isPrefixOf_iff_prefix.mpr (List.prefix_refl _), Bool.true_or]

/-- A suffix occurs as a substring. -/
theorem charsContain_append_self (xs ys : List Char) :
    charsContain (xs ++ ys) ys = true := by
  induction xs with
  | nil => simpa using charsContain_self ys
  | cons x xs ih =>
      simp only [List.cons_append, charsContain, List.append_eq, ih, Bool.or_true]

/-- `strContains (a ++ b) b` always holds. -/
theorem strContains_append_self (a b : String) : strContains (a ++ b) b = true := by
  have hdata : (a ++ b).toList = a.toList ++ b.toList := String.data_append a b
  unfold strContains
  rw [hdata]
  exact charsContain_append_self a.toList b.toList

/-! ## Claims -/

/-- Claim C1, counterexample.  With the single configured model returning
non-empty content, `analyze_resume` does return success, but the success
record is exactly `{success: True, analysis: raw_text, error: None}`: it does
not attribute the result to any candidate — no value of the record names the
model that produced it, contradicting the claimed `success(raw_text,
candidate_k)` attribution. -/
theorem C1_counterexample :
    analyze_resume "resume text" "key" (fun _ _ => .ok ⟨["part"], "raw model text"⟩) =
      [("success", .pyBool true), ("analysis", .pyStr "raw model text"), ("error", .pyNone)] ∧
    PyVal.pyStr geminiModelName ∉
      (analyze_resume "resume text" "key"
        (fun _ _ => .ok ⟨["part"], "raw model text"⟩)).map Prod.snd := by
  constructor
  · rfl
  · decide

/-- Claim C1, amended.  The implementation has a single hard-coded candidate,
`gemini-1.5-flash`; whenever that call returns a response with non-empty
`parts`, the operation returns the success record with the raw response text
immediately, the provider is invoked exactly once, and no other candidate is
ever consulted — but the success record does not identify the model. -/
theorem C1_single_candidate (resume_text api_key : String) (gen : GenOracle)
    (response : GenaiResponse)
    (hcall : gen geminiModelName (formatPrompt resume_text) = .ok response)
    (hparts : response.parts ≠ []) :
    analyze_resume_run resume_text api_key gen =
      ([("success", .pyBool true), ("analysis", .pyStr response.text), ("error", .pyNone)],
       [geminiModelName]) := by
  simp [analyze_resume_run, hcall, hparts]

/-- Witness for `C1_single_candidate` at a concrete oracle. -/
theorem C1_single_candidate_witness :
    analyze_resume_run "r" "k" (fun _ _ => .ok ⟨["p"], "body"⟩) =
      ([("success", .pyBool true), ("analysis", .pyStr "body"), ("error", .pyNone)],
       [geminiModelName]) :=
  C1_single_candidate "r" "k" (fun _ _ => .ok ⟨["p"], "body"⟩) ⟨["p"], "body"⟩ rfl (by decide)

/-- Claim C2, counterexample.  Under a provider that reports a rate-limit
error (a quota message, as a 429 produces), the run invokes the provider
exactly once — not the claimed three attempts with backoff — and returns the
canned quota failure at once. -/
theorem C2_counterexample :
    (analyze_resume_run "resume text" "key"
        (fun _ _ => .exn "429 Resource has been exhausted (e.g. check quota).")).2.length = 1 ∧
    ¬ ((analyze_resume_run "resume text" "key"
        (fun _ _ => .exn "429 Resource has been exhausted (e.g. check quota).")).2.length = 3) ∧
    dictGet (analyze_resume "resume text" "key"
        (fun _ _ => .exn "429 Resource has been exhausted (e.g. check quota).")) "error" =
      some (.pyStr quotaMessage) := by
  refine ⟨rfl, by decide, ?_⟩
  decide

/-- Claim C2, amended.  There is no retry and no backoff: any raised provider
error — rate-limit errors included — results in exactly one provider
invocation and an immediate failure return carrying the classified error
message. -/
theorem C2_no_retry (resume_text api_key msg : String) (gen : GenOracle)
    (hcall : gen geminiModelName (formatPrompt resume_text) = .exn msg) :
    analyze_resume_run resume_text api_key gen =
      ([("success", .pyBool false), ("analysis", .pyNone),
        ("error", .pyStr (classifyError msg))], [geminiModelName]) := by
  simp [analyze_resume_run, hcall]

/-- Witness for `C2_no_retry` at a concrete oracle. -/
theorem C2_no_retry_witness :
    analyze_resume_run "r" "k" (fun _ _ => .exn "quota hit") =
      ([("success", .pyBool false), ("analysis", .pyNone),
        ("error", .pyStr (classifyError "quota hit"))], [geminiModelName]) :=
  C2_no_retry "r" "k" "quota hit" (fun _ _ => .exn "quota hit") rfl

/-- Claim C3, counterexample.  A successful run returns a record whose keys
are `success, analysis, error` — neither the claimed structured record
`{score, good, bad, model_used}` nor the claimed error record `{error}`. -/
theorem C3_counterexample :
    ¬ (dictKeys (analyze_resume "resume text" "key" (fun _ _ => .ok ⟨["part"], "ok"⟩)) =
         ["score", "good", "bad", "model_used"] ∨
       dictKeys (analyze_resume "resume text" "key" (fun _ _ => .ok ⟨["part"], "ok"⟩)) =
         ["error"]) := by
  decide

/-- Claim C3, amended.  Every invocation of `analyze_resume` returns a record
with exactly the keys `success`, `analysis`, `error`; when `success` is true,
`analysis` is a (non-null) string and `error` is null.  No `{score, good, bad,
model_used}` record exists anywhere in the code. -/
theorem C3_result_shape (resume_text api_key : String) (gen : GenOracle) :
    dictKeys (analyze_resume resume_text api_key gen) = ["success", "analysis", "error"] ∧
    (dictGet (analyze_resume resume_text api_key gen) "success" = some (.pyBool true) →
      (∃ s, dictGet (analyze_resume resume_text api_key gen) "analysis" = some (.pyStr s)) ∧
      dictGet (analyze_resume resume_text api_key gen) "error" = some .pyNone) := by
  unfold analyze_resume analyze_resume_run
  cases gen geminiModelName (formatPrompt resume_text) with
  | ok response =>
      by_cases hp : response.parts = [] <;>
        simp [hp, dictKeys, dictGet, List.lookup]
  | exn e => simp [dictKeys, dictGet, List.lookup]

/-- Witness for `C3_result_shape` at a concrete oracle, with the success
hypothesis of the second conjunct discharged concretely. -/
theorem C3_result_shape_witness :
    dictKeys (analyze_resume "r" "k" (fun _ _ => .ok ⟨["p"], "body"⟩)) =
      ["success", "analysis", "error"] ∧
    ((∃ s, dictGet (analyze_resume "r" "k" (fun _ _ => .ok ⟨["p"], "body"⟩)) "analysis" =
        some (.pyStr s)) ∧
     dictGet (analyze_resume "r" "k" (fun _ _ => .ok ⟨["p"], "body"⟩)) "error" =
        some .pyNone) :=
  ⟨(C3_result_shape "r" "k" (fun _ _ => .ok ⟨["p"], "body"⟩)).1,
   (C3_result_shape "r" "k" (fun _ _ => .ok ⟨["p"], "body"⟩)).2 (by decide)⟩

/-- Claim C4, confirmed.  The model-call layer never raises to its caller:
for every oracle behaviour — blocked response, any raised exception, or a
normal response — `analyze_resume` returns one of the two typed records, a
success record with a string payload or a failure record with a string error
message. -/
theorem C4_no_uncaught_failures (resume_text api_key : String) (gen : GenOracle) :
    (∃ s, analyze_resume resume_text api_key gen =
        [("success", .pyBool true), ("analysis", .pyStr s), ("error", .pyNone)]) ∨
    (∃ m, analyze_resume resume_text api_key gen =
        [("success", .pyBool false), ("analysis", .pyNone), ("error", .pyStr m)]) := by
  unfold analyze_resume analyze_resume_run
  cases gen geminiModelName (formatPrompt resume_text) with
  | ok response =>
      by_cases hp : response.parts = []
      · exact Or.inr ⟨blockedMessage, by simp [hp]⟩
      · exact Or.inl ⟨response.text, by simp [hp]⟩
  | exn e => exact Or.inr ⟨classifyError e, by simp⟩

/-- Claim C5, counterexample.  A zero-page document yields zero extractable
characters (below the 100-character threshold), yet the extractor returns the
empty-file message, not the scanned-document message the claim requires for
every below-threshold document. -/
theorem C5_counterexample :
    extract_text_from_pdf (.parsed []) =
      (false, "❌ The PDF file appears to be empty.", none) ∧
    "❌ The PDF file appears to be empty." ≠ scannedPdfMessage 0 := by
  constructor
  · rfl
  · decide

/-- Claim C5, amended.  For every document that parses with at least one page:
below 100 stripped extractable characters the extractor returns `ok=false`
with the scanned-document message and `text=None`; at or above the threshold
it returns `ok=true` with the kept per-page texts joined by blank-line
separators.  (Zero-page documents get the empty-file message; unparseable
documents the invalid-format or generic error message.) -/
theorem C5_threshold (pages : List (Option String)) (h : pages ≠ []) :
    extract_text_from_pdf (.parsed pages) =
      (if totalChars pages < 100 then
        (false, scannedPdfMessage (totalChars pages), none)
       else
        (true, extractSuccessMessage (totalChars pages) pages.length,
         some (String.intercalate "\n\n" (keptPages pages)))) := by
  unfold extract_text_from_pdf
  have hl : ¬ (pages.length = 0) := by simpa using h
  simp only [hl, if_false]

/-- Witness for `C5_threshold` on a concrete one-page document. -/
theorem C5_threshold_witness :
    ([some "short resume"] : List (Option String)) ≠ [] ∧
    extract_text_from_pdf (.parsed [some "short resume"]) =
      (if totalChars [some "short resume"] < 100 then
        (false, scannedPdfMessage (totalChars [some "short resume"]), none)
       else
        (true, extractSuccessMessage (totalChars [some "short resume"])
          ([some "short resume"] : List (Option String)).length,
         some (String.intercalate "\n\n" (keptPages [some "short resume"])))) :=
  ⟨by decide, C5_threshold [some "short resume"] (by decide)⟩

/-- Claim C6, confirmed.  A provider response with no usable content (empty
`response.parts`, the safety-block case) produces a failure record — success
is false, the analysis payload is null — exactly like a candidate failure,
and never a success with an empty payload; no further provider invocation
follows (the configured candidate list is the single hard-coded model). -/
theorem C6_blocked_is_failure (resume_text api_key : String) (gen : GenOracle)
    (response : GenaiResponse)
    (hcall : gen geminiModelName (formatPrompt resume_text) = .ok response)
    (hblocked : response.parts = []) :
    analyze_resume_run resume_text api_key gen =
      ([("success", .pyBool false), ("analysis", .pyNone),
        ("error", .pyStr blockedMessage)], [geminiModelName]) := by
  simp [analyze_resume_run, hcall, hblocked]

/-- Witness for `C6_blocked_is_failure` at a concrete blocked response. -/
theorem C6_blocked_is_failure_witness :
    analyze_resume_run "r" "k" (fun _ _ => .ok ⟨[], ""⟩) =
      ([("success", .pyBool false), ("analysis", .pyNone),
        ("error", .pyStr blockedMessage)], [geminiModelName]) :=
  C6_blocked_is_failure "r" "k" (fun _ _ => .ok ⟨[], ""⟩) ⟨[], ""⟩ rfl rfl

/-- Claim C7, counterexample.  When the last (and only) error seen is a
concrete quota message, the reported failure description is the fixed canned
quota message, which does not contain the underlying error text — the
description does not reference the concrete error actually seen. -/
theorem C7_counterexample :
    dictGet (analyze_resume "resume text" "key"
        (fun _ _ => .exn "429 Resource has been exhausted (e.g. check quota).")) "error" =
      some (.pyStr quotaMessage) ∧
    strContains quotaMessage "429 Resource has been exhausted (e.g. check quota)." = false := by
  constructor
  · rfl
  · decide

/-- Claim C7, amended.  The failure description is derived from the error by
keyword classification: recognised categories (invalid key, quota, network)
map to fixed canned messages that do not embed the concrete error text, and
only an unrecognised error produces a description embedding `str(e)`
verbatim. -/
theorem C7_catch_all_embeds_error (resume_text api_key msg : String) (gen : GenOracle)
    (hcall : gen geminiModelName (formatPrompt resume_text) = .exn msg)
    (hunrec : errRecognized msg = false) :
    dictGet (analyze_resume resume_text api_key gen) "error" =
      some (.pyStr ("❌ **Analysis Failed**\n\nAn error occurred: " ++ msg)) ∧
    strContains ("❌ **Analysis Failed**\n\nAn error occurred: " ++ msg) msg = true := by
  refine ⟨?_, strContains_append_self _ msg⟩
  have hclass : classifyError msg = "❌ **Analysis Failed**\n\nAn error occurred: " ++ msg := by
    unfold classifyError
    unfold errRecognized at hunrec
    simp only [Bool.or_eq_false_iff] at hunrec
    simp [hunrec.1.1.1.1, hunrec.1.1.1.2, hunrec.1.1.2, hunrec.1.2, hunrec.2]
  unfold analyze_resume analyze_resume_run
  rw [hcall]
  simp [dictGet, List.lookup, hclass]

/-- Witness for `C7_catch_all_embeds_error` at a concrete unrecognised
error. -/
theorem C7_catch_all_embeds_error_witness :
    errRecognized "something odd happened" = false ∧
    (dictGet (analyze_resume "r" "k" (fun _ _ => .exn "something odd happened")) "error" =
        some (.pyStr ("❌ **Analysis Failed**\n\nAn error occurred: " ++ "something odd happened")) ∧
     strContains ("❌ **Analysis Failed**\n\nAn error occurred: " ++ "something odd happened")
        "something odd happened" = true) :=
  ⟨by decide,
   C7_catch_all_embeds_error "r" "k" "something odd happened"
     (fun _ _ => .exn "something odd happened") rfl (by decide)⟩

/-- Claim C8, confirmed against the spec-modelled normalizer (the repository
itself contains no normalizer).  Serializing any flat critique object to JSON,
wrapping it in code-fence markers and normalizing reproduces the object
exactly when the three required keys are present (round-trip law), and a
parsed mapping missing any of `score`, `good`, `bad` is rejected with the
schema-error outcome, never a partially-filled result. -/
theorem C8_normalizer_roundtrip (o : FlatObj) :
    normalize (fenceWrap (serializeFlatObj o)) =
      (if hasRequiredKeys o then Except.ok o else Except.error schemaErrorMessage) := by
  unfold normalize
  have htl : (fenceWrap (serializeFlatObj o)).toList =
      ['\x60', '\x60', '\x60', 'j', 's', 'o', 'n', '\n'] ++
        ((serializeFlatObj o).toList ++ ['\n', '\x60', '\x60', '\x60']) := by
    rw [fenceWrap_toList]
    rfl
  have hso : (serializeFlatObj o).toList = '\x7b' :: (serPairs o ++ ['\x7d']) := rfl
  have h1 : parseJsonText ((fenceWrap (serializeFlatObj o)).toList) = none := by
    rw [htl]
    exact parseJsonText_backtick _
  have h2 : parseJsonText (stripFences ((fenceWrap (serializeFlatObj o)).toList)) = some o := by
    rw [htl, hso, stripFences_fence (serPairs o)]
    exact parseJsonText_ser o
  rw [h1, h2]
  rfl

/-- Claim C9, confirmed.  Whenever text extraction fails, the pipeline stops
with the extraction (or key-validation) message and the provider-invocation
trace is empty: no model call is ever made in that run. -/
theorem C9_no_model_call_on_ingestion_error (api_key : String) (f : PdfReadResult)
    (gen : GenOracle) (h : (extract_text_from_pdf f).1 = false) :
    (run_analysis api_key f gen).2 = [] ∧
    (run_analysis api_key f gen).1 =
      (if api_key = "" ∨ api_key = "your_api_key_here" then AppStep.apiKeyError
       else AppStep.extractError (extract_text_from_pdf f).2.1) := by
  by_cases hk : api_key = "" ∨ api_key = "your_api_key_here"
  · simp [run_analysis, hk]
  · rcases hfe : extract_text_from_pdf f with ⟨b, msg, txt⟩
    rw [hfe] at h
    simp only at h
    subst h
    simp [run_analysis, hk, hfe]

/-- Witness for `C9_no_model_call_on_ingestion_error` on a corrupt document. -/
theorem C9_no_model_call_witness :
    (extract_text_from_pdf .syntaxError).1 = false ∧
    ((run_analysis "k" .syntaxError (fun _ _ => .exn "boom")).2 = [] ∧
     (run_analysis "k" .syntaxError (fun _ _ => .exn "boom")).1 =
       (if ("k" : String) = "" ∨ ("k" : String) = "your_api_key_here" then AppStep.apiKeyError
        else AppStep.extractError (extract_text_from_pdf .syntaxError).2.1)) :=
  ⟨rfl, C9_no_model_call_on_ingestion_error "k" .syntaxError (fun _ _ => .exn "boom") rfl⟩

/-- Claim C10, confirmed.  The metadata probe always returns a dictionary with
exactly the keys `filename, size_kb, pages, valid` (it never raises: both
branches of the source return such a record), and when the bytes cannot be
opened as a PDF it still reports the filename and size but `valid=False` and
`pages=0`. -/
theorem C10_pdf_info_shape (filename : String) (sizeBytes : Nat) (r : PdfOpenResult) :
    dictKeys (get_pdf_info filename sizeBytes r) = ["filename", "size_kb", "pages", "valid"] ∧
    get_pdf_info filename sizeBytes .failed =
      [("filename", .pyStr filename), ("size_kb", .pyRat (round2KbOfBytes sizeBytes)),
       ("pages", .pyInt 0), ("valid", .pyBool false)] := by
  cases r <;> exact ⟨rfl, rfl⟩

end ResumeAnalyzer
